import Mathlib

/-!
Shallow embedding of the stall-finder search pipeline (query parsing,
geocoding fallback, candidate retrieval filters, distance filtering,
LLM ranking and trace logging), translated from the TypeScript sources,
together with proofs settling the specification claims.

External effects (LLM chat completions, `JSON.parse`, the geocoding HTTP
service, the database and the trace sink) are modelled as explicit outcome
parameters; every piece of pipeline logic is translated as a pure function.
Numbers that the code manipulates exactly (coordinates, radii, scores) are
modelled as rationals; the one transcendental formula (the recency decay)
is modelled over the reals.
-/

namespace StallFinder

/-! ### Helpers modelling JavaScript string builtins

These model the handful of JS string primitives the pipeline uses:
`trim`, `toLowerCase` (ASCII range), `includes`, `split(/\s+/)`,
`split(' ')[0]` and the numeric fragment of `parseFloat`.
-/

/-- Whitespace test used by the models of `trim` and `split(/\s+/)`
(restricted to the ASCII whitespace characters that occur in practice). -/
def isWsp (c : Char) : Bool := c = ' ' || c = '\t' || c = '\n' || c = '\r'

/-- Model of `String.prototype.trim` on character lists: drop whitespace
from both ends. -/
def jsTrim (l : List Char) : List Char :=
  ((l.dropWhile isWsp).reverse.dropWhile isWsp).reverse

/-- `trim` on strings. -/
def jsTrimStr (s : String) : String := ⟨jsTrim s.data⟩

/-- Model of `String.prototype.toLowerCase` (ASCII case mapping). -/
def jsLower (l : List Char) : List Char := l.map Char.toLower

/-- `toLowerCase` on strings. -/
def jsLowerStr (s : String) : String := ⟨jsLower s.data⟩

/-- Does `needle` occur at the very start of `hay`? -/
def begMatch : List Char → List Char → Bool
  | [], _ => true
  | _ :: _, [] => false
  | a :: as, b :: bs => a == b && begMatch as bs

/-- Does `needle` occur contiguously anywhere inside `hay`?  Model of
`hay.includes(needle)` (note `"".includes("")` is `true`, as in JS). -/
def hasSub (needle : List Char) : List Char → Bool
  | [] => begMatch needle []
  | c :: t => begMatch needle (c :: t) || hasSub needle t

/-- `hay.includes(needle)` on strings. -/
def strHasSub (hay needle : String) : Bool := hasSub needle.data hay.data

/-- Accumulator-style worker for `splitWs`. -/
def splitWsAux : List Char → List Char → List (List Char)
  | [], acc => if acc.isEmpty then [] else [acc.reverse]
  | c :: t, acc =>
    if isWsp c then
      if acc.isEmpty then splitWsAux t [] else acc.reverse :: splitWsAux t []
    else splitWsAux t (c :: acc)

/-- Model of `split(/\s+/)`, except that it never produces empty tokens.
(JS produces one leading `""` token when the string starts with
whitespace; every use in the source immediately filters tokens by
`length > 2`, which discards such empty tokens anyway.) -/
def splitWs (l : List Char) : List (List Char) := splitWsAux l []

/-- `l.forEach((x, i) => ...)`-style enumeration with explicit start. -/
def enumIdx : ℕ → List α → List (ℕ × α)
  | _, [] => []
  | n, a :: as => (n, a) :: enumIdx (n + 1) as

/-- ASCII digit test. -/
def isDig (c : Char) : Bool := '0' ≤ c && c ≤ '9'

/-- Decimal value of a digit string. -/
def natOfDigits (l : List Char) : ℕ := l.foldl (fun a c => a * 10 + (c.toNat - 48)) 0

/-- Value of a fractional digit string (the part after the decimal point). -/
def fracOfDigits (l : List Char) : ℚ := l.foldr (fun c a => ((c.toNat - 48 : ℚ) + a) / 10) 0

/-- Model of the plain-decimal fragment of `parseFloat`: skip leading
whitespace, optional sign, digits with an optional fractional part, and
stop at the first character that does not continue the number.  `none`
models the `NaN` result (no digits at all).  Exponent forms and the
literal `"Infinity"` are outside the modelled fragment (no call site
feeds them). -/
def parseFloatQ (l : List Char) : Option ℚ :=
  let l1 := l.dropWhile isWsp
  let signed : ℚ × List Char :=
    match l1 with
    | '-' :: t => (-1, t)
    | '+' :: t => (1, t)
    | _ => (1, l1)
  let intPart := signed.2.takeWhile isDig
  let rest := signed.2.dropWhile isDig
  let fracPart := match rest with | '.' :: t => t.takeWhile isDig | _ => []
  if intPart.isEmpty && fracPart.isEmpty then none
  else some (signed.1 * ((natOfDigits intPart : ℚ) + fracOfDigits fracPart))

/-! ### The stall record

`src/utils/agent/types.ts` (`Stall`).  Only the fields that the modelled
control flow reads are carried: `place_id`, `name`, the coordinates and
the request-scoped `distance`.  The remaining descriptive fields
(category, cuisine, review text, ...) are only ever copied into prompt
strings or response payloads and never influence any branch. -/
structure Stall where
  place_id : String
  name : String
  latitude : ℚ
  longitude : ℚ
  distance : Option ℚ
deriving DecidableEq

/-- Default used to model JS array indexing where the index is known to be
in range. -/
def dfltStall : Stall := { place_id := "", name := "", latitude := 0, longitude := 0, distance := none }

/-! ### Constants (`AGENT_CONFIG` in `src/utils/agent/types.ts`) -/

def DEFAULT_RADIUS_KM : ℚ := 2

def MAX_RANKING_CANDIDATES : ℕ := 50

def TOP_N_RESULTS : ℕ := 10

/-! ### Claim C4 — guided-search affordability mapping

`src/pages/api/search.ts`, guided branch of `handler` (lines 534-549);
the same `switch` appears in the older handler in `src/unnamed/part_005`. -/

/-- The `switch (affordability)` of the guided handler, mapping the `$`
filter value to the list of accepted `affordability` column values. -/
def guidedAffordabilityValues (affordability : String) : List String :=
  if affordability = "$" then ["Affordable (< S$10)"]
  else if affordability = "$$" then ["Affordable (< S$10)", "Mid-Range (S$10–S$20)"]
  else if affordability = "$$$" then ["Mid-Range (S$10–S$20)", "Premium (> S$20)"]
  else [affordability]

/-! ### Claim C10 — `proximityToKm` and the guided distance filter

`src/pages/api/search.ts` lines 136-140 and 556-568.  The `none` value of
the result models the JavaScript `Infinity`. -/

/-- `proximity.split(' ')[0]`: the characters before the first space. -/
def firstSpaceTok (s : String) : List Char := s.data.takeWhile (fun c => c ≠ ' ')

/-- `proximityToKm` from the guided handler.  `!proximity` (empty string)
returns Infinity; otherwise `parseFloat` of the first space-separated
token, with the `value || Infinity` coercion sending `NaN` and `0` to
Infinity. -/
def proximityToKm (proximity : String) : Option ℚ :=
  if proximity = "" then none
  else
    match parseFloatQ (firstSpaceTok proximity) with
    | none => none
    | some value => if value = 0 then none else some value

/-- `stall.distance <= maxDistance` where `maxDistance` may be Infinity. -/
def leProx (d : ℚ) (m : Option ℚ) : Bool :=
  match m with
  | none => true
  | some r => decide (d ≤ r)

/-- Attaching the computed distance to a stall (the `{...stall, distance}` spread).
The great-circle computation itself is transcendental, so the distance
function is passed in as an argument; the pipeline only ever uses it as
an abstract pure function of the two coordinate pairs. -/
def attachDistance (dist : ℚ → ℚ → ℚ → ℚ → ℚ) (lat lng : ℚ) (st : Stall) : Stall :=
  { st with distance := some (dist lat lng st.latitude st.longitude) }

/-- The guided handler's proximity filtering step: attach a distance to
every stall, keep those within `proximityToKm proximity`. -/
def guidedProximityFilter (dist : ℚ → ℚ → ℚ → ℚ → ℚ) (lat lng : ℚ)
    (proximity : String) (stalls : List Stall) : List Stall :=
  (stalls.map (attachDistance dist lat lng)).filter
    (fun st => leProx (st.distance.getD 0) (proximityToKm proximity))

/-! ### Claim C6 — geocoding fallback

`src/utils/agent/fallbackLocations.ts` (in `src/unnamed/part_004`) and
`geocode` / `geocodeWithFallback` in `src/utils/agent/geocode.ts`. -/

/-- A coordinate pair (`Coords` in `src/utils/agent/types.ts`). -/
structure Coords where
  lat : ℚ
  lng : ℚ
deriving DecidableEq

/-- Which path produced a geocoding result. -/
inductive GeoSource where
  | onemap
  | fallback
deriving DecidableEq

/-- `GeocodingResult` from `src/utils/agent/types.ts`. -/
structure GeocodingResult where
  lat : ℚ
  lng : ℚ
  source : GeoSource
  input : String
  address : Option String
deriving DecidableEq

/-- `FALLBACK_LOCATIONS`: the static gazetteer, as an association list in
source (insertion) order — JS object iteration over these string keys is
insertion order, and `getFallbackLocation` relies on it for its
first-match-wins containment lookup. -/
def FALLBACK_LOCATIONS : List (String × Coords) := [
  ("bugis", Coords.mk 1.3008 103.8558),
  ("orchard", Coords.mk 1.3041 103.8318),
  ("chinatown", Coords.mk 1.2834 103.8443),
  ("little india", Coords.mk 1.3066 103.8518),
  ("clarke quay", Coords.mk 1.2884 103.8464),
  ("marina bay", Coords.mk 1.2794 103.8543),
  ("raffles place", Coords.mk 1.2830 103.8513),
  ("tanjong pagar", Coords.mk 1.2764 103.8456),
  ("tiong bahru", Coords.mk 1.2867 103.8277),
  ("geylang", Coords.mk 1.3119 103.8868),
  ("katong", Coords.mk 1.3048 103.9052),
  ("joo chiat", Coords.mk 1.3130 103.9025),
  ("east coast", Coords.mk 1.3016 103.9123),
  ("bedok", Coords.mk 1.3241 103.9304),
  ("tampines", Coords.mk 1.3536 103.9456),
  ("pasir ris", Coords.mk 1.3730 103.9494),
  ("changi", Coords.mk 1.3568 103.9886),
  ("ang mo kio", Coords.mk 1.3691 103.8454),
  ("bishan", Coords.mk 1.3505 103.8485),
  ("toa payoh", Coords.mk 1.3346 103.8500),
  ("serangoon", Coords.mk 1.3500 103.8718),
  ("hougang", Coords.mk 1.3713 103.8920),
  ("punggol", Coords.mk 1.3984 103.9072),
  ("sengkang", Coords.mk 1.3917 103.8953),
  ("woodlands", Coords.mk 1.4360 103.7865),
  ("yishun", Coords.mk 1.4295 103.8350),
  ("sembawang", Coords.mk 1.4491 103.8199),
  ("jurong east", Coords.mk 1.3330 103.7423),
  ("jurong west", Coords.mk 1.3404 103.7090),
  ("clementi", Coords.mk 1.3150 103.7651),
  ("buona vista", Coords.mk 1.3073 103.7901),
  ("holland village", Coords.mk 1.3117 103.7961),
  ("novena", Coords.mk 1.3204 103.8439),
  ("newton", Coords.mk 1.3138 103.8381),
  ("dhoby ghaut", Coords.mk 1.2988 103.8456),
  ("city hall", Coords.mk 1.2931 103.8519),
  ("lavender", Coords.mk 1.3072 103.8630),
  ("kallang", Coords.mk 1.3114 103.8714),
  ("aljunied", Coords.mk 1.3165 103.8829),
  ("paya lebar", Coords.mk 1.3178 103.8927),
  ("eunos", Coords.mk 1.3198 103.9030),
  ("kembangan", Coords.mk 1.3208 103.9128),
  ("simei", Coords.mk 1.3432 103.9532),
  ("expo", Coords.mk 1.3351 103.9617),
  ("maxwell", Coords.mk 1.2804 103.8447),
  ("maxwell food centre", Coords.mk 1.2804 103.8447),
  ("old airport road", Coords.mk 1.3082 103.8831),
  ("old airport road food centre", Coords.mk 1.3082 103.8831),
  ("amoy street", Coords.mk 1.2799 103.8469),
  ("amoy street food centre", Coords.mk 1.2799 103.8469),
  ("golden mile", Coords.mk 1.3025 103.8631),
  ("golden mile food centre", Coords.mk 1.3025 103.8631),
  ("lau pa sat", Coords.mk 1.2805 103.8505),
  ("tekka", Coords.mk 1.3066 103.8500),
  ("tekka centre", Coords.mk 1.3066 103.8500),
  ("chomp chomp", Coords.mk 1.3619 103.8664),
  ("newton food centre", Coords.mk 1.3120 103.8388),
  ("adam road food centre", Coords.mk 1.3245 103.8139),
  ("ghim moh", Coords.mk 1.3111 103.7883),
  ("commonwealth", Coords.mk 1.3020 103.7987),
  ("zion road", Coords.mk 1.2910 103.8295),
  ("hong lim", Coords.mk 1.2852 103.8452),
  ("hong lim food centre", Coords.mk 1.2852 103.8452),
  ("albert centre", Coords.mk 1.3022 103.8535),
  ("berseh food centre", Coords.mk 1.3073 103.8550),
  ("bendemeer", Coords.mk 1.3220 103.8652),
  ("ion orchard", Coords.mk 1.3039 103.8318),
  ("ngee ann city", Coords.mk 1.3020 103.8341),
  ("takashimaya", Coords.mk 1.3020 103.8341),
  ("plaza singapura", Coords.mk 1.3008 103.8451),
  ("suntec", Coords.mk 1.2940 103.8578),
  ("suntec city", Coords.mk 1.2940 103.8578),
  ("bugis junction", Coords.mk 1.2997 103.8550),
  ("bugis+", Coords.mk 1.3003 103.8549),
  ("vivo city", Coords.mk 1.2644 103.8223),
  ("vivocity", Coords.mk 1.2644 103.8223),
  ("harbourfront", Coords.mk 1.2653 103.8214),
  ("sentosa", Coords.mk 1.2494 103.8303),
  ("nus", Coords.mk 1.2966 103.7764),
  ("ntu", Coords.mk 1.3483 103.6831),
  ("smu", Coords.mk 1.2973 103.8498),
  ("sutd", Coords.mk 1.3413 103.9637)
]

/-- `locationName.toLowerCase().trim()`. -/
def normalizeLoc (s : String) : String := jsTrimStr (jsLowerStr s)

/-- The direct-hit dictionary access `FALLBACK_LOCATIONS[normalized]`. -/
def lookupExact (n : String) : List (String × Coords) → Option Coords
  | [] => none
  | (k, c) :: rest => if k = n then some c else lookupExact n rest

/-- The `for (const [key, coords] of Object.entries(...))` loop:
bidirectional substring containment, first match wins. -/
def lookupPartial (n : String) : List (String × Coords) → Option Coords
  | [] => none
  | (k, c) :: rest =>
    if strHasSub k n || strHasSub n k then some c else lookupPartial n rest

/-- `getFallbackLocation` from the fallback-locations module. -/
def getFallbackLocation (locationName : String) : Option Coords :=
  match lookupExact (normalizeLoc locationName) FALLBACK_LOCATIONS with
  | some c => some c
  | none => lookupPartial (normalizeLoc locationName) FALLBACK_LOCATIONS

/-- `geocodeWithFallback` from `geocode.ts`. -/
def geocodeWithFallback (placeName : String) : Option GeocodingResult :=
  match getFallbackLocation placeName with
  | some coords =>
    some { lat := coords.lat, lng := coords.lng, source := GeoSource.fallback,
           input := placeName, address := none }
  | none => none

/-- Outcome of the OneMap HTTP interaction, one constructor per branch of
`geocode` (missing token, 400, 403, 429, other non-ok status, a thrown
fetch/parse error, an empty result list, or a first result with parsed
coordinates and address). -/
inductive OneMapEnv where
  | noToken
  | badRequest
  | forbidden
  | rateLimited
  | httpError (code : ℕ)
  | thrown
  | noResults
  | found (lat lng : ℚ) (address : String)
deriving DecidableEq

/-- `geocode` from `geocode.ts`: every unavailable-service branch falls
back to the gazetteer; only a found result uses the service response. -/
def geocode (env : OneMapEnv) (placeName : String) : Option GeocodingResult :=
  match env with
  | .noToken => geocodeWithFallback placeName
  | .badRequest => geocodeWithFallback placeName
  | .forbidden => geocodeWithFallback placeName
  | .rateLimited => geocodeWithFallback placeName
  | .httpError _ => geocodeWithFallback placeName
  | .thrown => geocodeWithFallback placeName
  | .noResults => geocodeWithFallback placeName
  | .found lat lng address =>
    some { lat := lat, lng := lng, source := GeoSource.onemap,
           input := placeName, address := some address }

/-- Is the external service unavailable (any branch other than a found
result)? -/
def oneMapUnavailable (env : OneMapEnv) : Bool :=
  match env with
  | .found _ _ _ => false
  | _ => true

/-! ### Claim C7 — recency score

`calculateRecencyScore` in `src/pages/api/search.ts` (lines 107-120).
Timestamps are modelled as epoch milliseconds over ℝ; the `none` input
models the falsy guard (`null` or empty `date_published`).  Parsing the
date string itself is a JS builtin outside the model. -/

/-- `calculateRecencyScore`: exponential decay of the age in days
(`diffTime / (1000*3600*24)`) with a one-year time constant. -/
noncomputable def calculateRecencyScore (nowMs : ℝ) (datePublished : Option ℝ) : ℝ :=
  match datePublished with
  | none => 0
  | some t => Real.exp (-(((nowMs - t) / (1000 * 3600 * 24)) / 365))

/-- One day in milliseconds, as a real. -/
def MS_PER_DAY : ℝ := 1000 * 3600 * 24

/-! ### Claim C9 — trace persistence never propagates failure

`logTraceToSupabase` in `src/utils/agent/trace.ts` (`src/unnamed/part_002`
lines 127-162).  The insert row only copies trace fields; the sink's
behaviour is the environment, modelled by `SinkOutcome`. -/

/-- A minimal model of `SearchTrace` (`src/utils/agent/types.ts`): the
insert only moves per-stage data into a row, so representative payload
fields suffice. -/
structure SearchTrace where
  trace_id : String
  raw_query : String
  ranked_ids : List String
  result_count : ℕ
  total_latency_ms : ℕ
  errors : List (String × String)
deriving DecidableEq

/-- How the `supabase...insert(...)` promise behaves: it may throw, resolve
with an `error` value set (e.g. the target table does not exist), or
succeed. -/
inductive SinkOutcome where
  | thrown (message : String)
  | insertError (message : String)
  | inserted
deriving DecidableEq

/-- The awaited insert call: `.error e` models a thrown promise rejection,
`.ok (some m)` a resolved response with its `error` field set, `.ok none`
success. -/
def supabaseInsert (outcome : SinkOutcome) (_trace : SearchTrace) :
    Except String (Option String) :=
  match outcome with
  | .thrown m => .error m
  | .insertError m => .ok (some m)
  | .inserted => .ok none

/-- The body of the `try` block of `logTraceToSupabase`: await the insert
(which may throw), then turn a returned `error` into a warning
(`console.warn('Failed to log trace to Supabase:', ...)`). -/
def logTraceBody (outcome : SinkOutcome) (trace : SearchTrace) :
    Except String (Option String) := do
  let err ← supabaseInsert outcome trace
  match err with
  | some m => pure (some ("Failed to log trace to Supabase: " ++ m))
  | none => pure none

/-- `logTraceToSupabase`: the whole body runs inside `try ... catch`, and
the `catch` converts any thrown error into a logged warning
(`console.warn('Error logging trace:', ...)`), so the function always
returns normally; the result records the warning, if any. -/
def logTraceToSupabase (outcome : SinkOutcome) (trace : SearchTrace) :
    Except String (Option String) :=
  match logTraceBody outcome trace with
  | .error e => .ok (some ("Error logging trace: " ++ e))
  | .ok w => .ok w

/-! ### LLM call and JSON-decode environment

A chat completion either throws or replies with text; `JSON.parse` plus the
shape inspection of the parsed value is modelled as a decode function from
the cleaned response text to an optional decoded record (`none` models a
`JSON.parse` throw). -/

/-- Outcome of an awaited LLM chat call. -/
inductive ChatOutcome where
  | throw (message : String)
  | reply (text : String)

/-- The markdown-fence cleanup shared verbatim by `parseJsonResponse`
(`parseQuery.ts`) and `parseRankingResponse` (`rankWithLLM.ts`):
trim, strip a leading ```` ```json ```` or ```` ``` ````, strip a
trailing ```` ``` ````, trim again. -/
def cleanLlmJson (response : String) : String :=
  let t0 := jsTrim response.data
  let t1 :=
    if begMatch ("```json".data) t0 then t0.drop 7
    else if begMatch ("```".data) t0 then t0.drop 3
    else t0
  let t2 :=
    if begMatch (("```".data).reverse) t1.reverse then t1.take (t1.length - 3) else t1
  ⟨jsTrim t2⟩

/-! ### Claim C2 — query interpreter (`parseQuery.ts`, the variant with
`location_intent`, `src/utils/agent/geocode.ts` lines 467-544; the other
variant differs only by the absence of that field). -/

/-- Normalized price preference. -/
inductive Price where
  | cheap
  | moderate
  | expensive
deriving DecidableEq

/-- Normalized location intent. -/
inductive LocationIntent where
  | closest
  | nearby
  | in_area
deriving DecidableEq

/-- `ParsedQuery` from `src/utils/agent/types.ts`. -/
structure ParsedQuery where
  food_query : String
  location_name : Option String
  use_current_location : Bool
  location_intent : Option LocationIntent
  cuisine : Option String
  price : Option Price
  exclusions : List String
deriving DecidableEq

/-- The decoded JSON object handed to the normalization step: one field
per expected key, `none` modelling an absent or `null` value.  String
fields model the string payloads the model produces (a non-string JSON
value would pass through `String(...)`, which does not affect any claim
here). -/
structure ParsedDecoded where
  food_query : Option String
  location_name : Option String
  use_current_location : Bool
  location_intent : Option String
  cuisine : Option String
  price : Option String
  exclusions : Option (List String)
deriving DecidableEq

/-- `normalizePrice`: the `!price` guard (absent or empty string maps to
`null`), then lowercase + trim and the keyword-synonym tables. -/
def normalizePrice (price : Option String) : Option Price :=
  match price with
  | none => none
  | some s =>
    if s = "" then none
    else
      let normalized := jsTrimStr (jsLowerStr s)
      if ["cheap", "budget", "affordable", "low"].contains normalized then some Price.cheap
      else if ["moderate", "medium", "mid"].contains normalized then some Price.moderate
      else if ["expensive", "premium", "high", "high-end"].contains normalized then
        some Price.expensive
      else none

/-- `normalizeLocationIntent`, same shape as `normalizePrice`. -/
def normalizeLocationIntent (intent : Option String) : Option LocationIntent :=
  match intent with
  | none => none
  | some s =>
    if s = "" then none
    else
      let normalized := jsTrimStr (jsLowerStr s)
      if ["closest", "nearest"].contains normalized then some LocationIntent.closest
      else if ["nearby", "near"].contains normalized then some LocationIntent.nearby
      else if ["in_area", "in area", "inarea"].contains normalized then
        some LocationIntent.in_area
      else none

/-- `parseJsonResponse` from `parseQuery.ts`: clean fences, decode, then
coerce each field — `food_query` falls back to `""` via
`String(parsed.food_query || '').trim()`, the optional strings use the
`x ? String(x).trim() : null` pattern, `exclusions` defaults to `[]`
when not an array; an undecodable payload throws the fatal
`Invalid JSON response from LLM` error carrying the first 100
characters. -/
def parseJsonResponse (decode : String → Option ParsedDecoded) (response : String) :
    Except String ParsedQuery :=
  let jsonStr := cleanLlmJson response
  match decode jsonStr with
  | none => .error ("Invalid JSON response from LLM: " ++ jsonStr.take 100)
  | some parsed =>
    .ok { food_query := jsTrimStr (parsed.food_query.getD "")
          location_name :=
            match parsed.location_name with
            | some s => if s = "" then none else some (jsTrimStr s)
            | none => none
          use_current_location := parsed.use_current_location
          location_intent := normalizeLocationIntent parsed.location_intent
          cuisine :=
            match parsed.cuisine with
            | some s => if s = "" then none else some (jsTrimStr s)
            | none => none
          price := normalizePrice parsed.price
          exclusions := (parsed.exclusions.getD []).map jsTrimStr }

/-- `ParseQueryResult` from `parseQuery.ts` (the `model` field is a fixed
constant and is dropped). -/
structure ParseQueryResult where
  parsed : ParsedQuery
  raw_response : String
  latency_ms : ℕ
deriving DecidableEq

/-- `parseQuery`: chat, then `parseJsonResponse`; the surrounding
`try/catch` rethrows every failure as the fatal
`Failed to parse query` error. -/
def parseQuery (chat : ChatOutcome) (decode : String → Option ParsedDecoded)
    (elapsed : ℕ) (_query : String) : Except String ParseQueryResult :=
  match chat with
  | .throw m => .error ("Failed to parse query: " ++ m)
  | .reply text =>
    match parseJsonResponse decode text with
    | .error e => .error ("Failed to parse query: " ++ e)
    | .ok parsed => .ok { parsed := parsed, raw_response := text, latency_ms := elapsed }

/-! ### Claims C1/C3/C5 — the LLM ranking engine
(`src/unnamed/part_001`, the `rankWithLLM.ts` variant with the
name-match pre-boost; the plain `src/utils/agent/rankWithLLM.ts` variant
is the same function without the pre-boost step). -/

/-- `RankingResult` from `src/utils/agent/types.ts`. -/
structure RankingResult where
  ranked_ids : List String
  reasoning : Option String
deriving DecidableEq

/-- The decoded ranking JSON: `ranked_ids` is `some` a list of integers
exactly when `Array.isArray(parsed.ranked_ids)` holds with numeric
entries, `reasoning` is the optional string payload. -/
structure RankDecoded where
  ranked_ids : Option (List ℤ)
  reasoning : Option String
deriving DecidableEq

/-- `RankWithLLMResult` (again dropping the constant `model` field). -/
structure RankWithLLMResult where
  ranking : RankingResult
  raw_response : String
  latency_ms : ℕ
deriving DecidableEq

/-- The per-candidate score of `findNameMatches`: summed length of the
lowercased query words longer than 2 characters that occur in the
lowercased stall name, plus 100 when the whole lowercased query occurs
in it. -/
def scoreOf (foodQuery : String) (st : Stall) : ℕ :=
  let ql := jsLower foodQuery.data
  let queryWords := (splitWs ql).filter (fun w => 2 < w.length)
  let stallName := jsLower st.name.data
  (queryWords.foldl (fun acc w => if hasSub w stallName then acc + w.length else acc) 0)
    + (if hasSub ql stallName then 100 else 0)

/-- The `matches` array built by the `candidates.forEach` loop of
`findNameMatches`: `(index, score)` pairs of the candidates with
positive score, in candidate order. -/
def matchPairs (foodQuery : String) (candidates : List Stall) : List (ℕ × ℕ) :=
  (enumIdx 0 candidates).filterMap (fun p =>
    let score := scoreOf foodQuery p.2
    if 0 < score then some (p.1, score) else none)

/-- The comparator `(a, b) => b.score - a.score` of the stable
`Array.prototype.sort`: `a` sorts no later than `b` iff `b`'s score is
not larger. -/
def scoreRel (a b : ℕ × ℕ) : Prop := b.2 ≤ a.2

instance : DecidableRel scoreRel := fun a b => (inferInstance : Decidable (b.2 ≤ a.2))

instance : IsTotal (ℕ × ℕ) scoreRel := ⟨fun a b => le_total b.2 a.2⟩

instance : IsTrans (ℕ × ℕ) scoreRel := ⟨fun _ _ _ h1 h2 => le_trans h2 h1⟩

/-- The strengthened ordering a STABLE descending-score sort of
distinct-index pairs satisfies between neighbours: strictly smaller
score, or equal score and strictly smaller original index. -/
def stableDesc (a b : ℕ × ℕ) : Prop := b.2 < a.2 ∨ (a.2 = b.2 ∧ a.1 < b.1)

/-- `findNameMatches`: indices of the positively scored candidates, by
descending score; `List.insertionSort` with `scoreRel` is the stable
sort the JS engine performs. -/
def findNameMatches (foodQuery : String) (candidates : List Stall) : List ℕ :=
  (List.insertionSort scoreRel (matchPairs foodQuery candidates)).map (fun m => m.1)

/-- The reordering block of `rankWithLLM` (part_001 lines 145-157): when
there are name matches, move them to the front
(`nameMatchIndices.map(i => candidates[i])`) and keep the rest in order
(`candidates.filter((_, i) => !nameMatchIndices.includes(i))`). -/
def preFilter (foodQuery : String) (candidates : List Stall) : List Stall :=
  let nameMatchIndices := findNameMatches foodQuery candidates
  if nameMatchIndices.isEmpty then candidates
  else
    (nameMatchIndices.map (fun i => candidates.getD i dfltStall))
      ++ ((enumIdx 0 candidates).filter
            (fun p => !(nameMatchIndices.contains p.1))).map (fun p => p.2)

/-- `parseRankingResponse`: clean fences, decode; a decode failure or an
empty list of in-range 1-indexed positions falls back to the first
`TOP_N_RESULTS` candidates; otherwise map positions to `place_id`s,
dropping out-of-range ones, and truncate to `TOP_N_RESULTS`
(`parsed.reasoning || null` sends an absent or empty reasoning to
`null`). -/
def parseRankingResponse (decode : String → Option RankDecoded) (response : String)
    (candidates : List Stall) : RankingResult :=
  let jsonStr := cleanLlmJson response
  match decode jsonStr with
  | none =>
    { ranked_ids := (candidates.take TOP_N_RESULTS).map (fun s => s.place_id)
      reasoning := some "Fallback to original order - JSON parse error" }
  | some parsed =>
    let rankedIds := (parsed.ranked_ids.getD []).filterMap (fun position =>
      let index : ℤ := position - 1
      if 0 ≤ index ∧ index < (candidates.length : ℤ) then
        some ((candidates.getD index.toNat dfltStall).place_id)
      else none)
    if rankedIds.isEmpty then
      { ranked_ids := (candidates.take TOP_N_RESULTS).map (fun s => s.place_id)
        reasoning := some "Fallback to original order - could not parse ranking" }
    else
      { ranked_ids := rankedIds.take TOP_N_RESULTS
        reasoning :=
          match parsed.reasoning with
          | some s => if s = "" then none else some s
          | none => none }

/-- `rankWithLLM` (part_001): empty candidates short-circuit before the
chat call at zero latency; otherwise apply the name-match pre-boost,
truncate to `MAX_RANKING_CANDIDATES`, and either parse the reply or —
when the chat call throws — fall back to the reordered order.
`elapsed` stands for the wall-clock `Date.now() - startTime`. -/
def rankWithLLM (chat : ChatOutcome) (decode : String → Option RankDecoded)
    (elapsed : ℕ) (foodQuery : String) (candidates : List Stall) : RankWithLLMResult :=
  if candidates.length = 0 then
    { ranking := { ranked_ids := [], reasoning := some "No candidates to rank" }
      raw_response := "", latency_ms := 0 }
  else
    let reordered := preFilter foodQuery candidates
    let limitedCandidates := reordered.take MAX_RANKING_CANDIDATES
    match chat with
    | .throw _ =>
      { ranking :=
          { ranked_ids := (reordered.take TOP_N_RESULTS).map (fun s => s.place_id)
            reasoning := some "Fallback to original order due to ranking error" }
        raw_response := "", latency_ms := elapsed }
    | .reply text =>
      { ranking := parseRankingResponse decode text limitedCandidates
        raw_response := text, latency_ms := elapsed }

/-- `new Map(candidates.map(c => [c.place_id, c])).get(id)`: a JS `Map`
built from a list keeps the LAST entry for a duplicated key. -/
def mapGet (candidates : List Stall) (id : String) : Option Stall :=
  candidates.foldl (fun acc c => if c.place_id = id then some c else acc) none

/-- The reorder step of `performAgentSearch` (search.ts lines 444-449):
map ranked ids back to candidates, dropping ids that are no longer
present. -/
def agentRankedCandidates (rankedIds : List String) (candidates : List Stall) :
    List Stall :=
  rankedIds.filterMap (fun id => mapGet candidates id)

/-- The ranking-and-format tail of `performAgentSearch` (steps 5 and 6):
zero candidates short-circuit to the synthetic empty ranking without
calling `rankWithLLM`; then candidates are reordered by `ranked_ids` and
capped at `TOP_N_RESULTS`.  (The final per-field projection into the
response payload is a field copy and is not modelled.) -/
def agentResults (chat : ChatOutcome) (decode : String → Option RankDecoded)
    (elapsed : ℕ) (foodQuery : String) (candidates : List Stall) : List Stall :=
  let ranking :=
    if candidates.length = 0 then
      ({ ranked_ids := [], reasoning := some "No candidates to rank" } : RankingResult)
    else (rankWithLLM chat decode elapsed foodQuery candidates).ranking
  (agentRankedCandidates ranking.ranked_ids candidates).take TOP_N_RESULTS

/-! ### Claim C8 — the orchestrator's distance filter
(`performAgentSearch`, search.ts lines 398-414). -/

/-- The ascending-distance comparator `(a, b) => a.distance! - b.distance!`
of the stable sort (the filter step only sorts stalls whose `distance`
is present; `getD 0` models the non-null assertion `distance!`). -/
def distRel (a b : Stall) : Prop := a.distance.getD 0 ≤ b.distance.getD 0

instance : DecidableRel distRel := fun a b =>
  (inferInstance : Decidable (a.distance.getD 0 ≤ b.distance.getD 0))

instance : IsTotal Stall distRel := ⟨fun _ _ => le_total _ _⟩

instance : IsTrans Stall distRel := ⟨fun _ _ _ h1 h2 => le_trans h1 h2⟩

/-- Step 4 of `performAgentSearch` when a search center exists: attach the
great-circle distance to every candidate, drop those beyond the radius
(the orchestrator instantiates it with `AGENT_CONFIG.DEFAULT_RADIUS_KM`),
and sort ascending by distance.  As in `guidedProximityFilter`, the
transcendental distance computation is an abstract pure function
argument. -/
def distanceFilter (dist : ℚ → ℚ → ℚ → ℚ → ℚ) (center : Coords) (radius : ℚ)
    (candidates : List Stall) : List Stall :=
  List.insertionSort distRel
    ((candidates.map (attachDistance dist center.lat center.lng)).filter
      (fun st => decide (st.distance.getD 0 ≤ radius)))

/-! ### Concrete fixtures used by counterexamples and scenario theorems -/

/-- A decode environment whose JSON object carries none of the expected
fields (e.g. the model replied `{}`). -/
def decodeEmptyObject : String → Option ParsedDecoded := fun _ =>
  some { food_query := none, location_name := none, use_current_location := false,
         location_intent := none, cuisine := none, price := none, exclusions := none }

/-- A ranking reply whose `ranked_ids` repeats position 1. -/
def decodeDupRanking : String → Option RankDecoded := fun _ =>
  some { ranked_ids := some [1, 1], reasoning := none }

def stallA : Stall :=
  { place_id := "p1", name := "A", latitude := 0, longitude := 0, distance := none }

def stallB : Stall :=
  { place_id := "p2", name := "B", latitude := 0, longitude := 0, distance := none }

/-- The two candidates of the spec's name-match scenario. -/
def ttStall : Stall :=
  { place_id := "tian-tian", name := "Tian Tian", latitude := 0, longitude := 0,
    distance := none }

def abcStall : Stall :=
  { place_id := "abc-stall", name := "ABC Stall", latitude := 0, longitude := 0,
    distance := none }

/-! ### Theorems settling the claims -/

/-- Claim C4, counterexample: the guided `"$$$"` filter does NOT accept the
cheap bucket, so its bucket set does not include all three price tiers. -/
theorem C4_counterexample : "Affordable (< S$10)" ∉ guidedAffordabilityValues "$$$" := by
  simp [guidedAffordabilityValues]

/-- Claim C4 (amended): in guided search, `"$$$"` maps to exactly the
moderate and expensive buckets (mid-range and premium) — not the cheap
bucket; only `"$$"` is cumulative over the lower two tiers. -/
theorem C4_affordability_mapping :
    guidedAffordabilityValues "$$$" = ["Mid-Range (S$10–S$20)", "Premium (> S$20)"] ∧
    guidedAffordabilityValues "$$" = ["Affordable (< S$10)", "Mid-Range (S$10–S$20)"] ∧
    guidedAffordabilityValues "$" = ["Affordable (< S$10)"] :=
  ⟨rfl, rfl, rfl⟩

/-- `"0 km"` parses to the number zero. -/
lemma parseFloatQ_zero_km : parseFloatQ (firstSpaceTok "0 km") = some 0 := by
  have h : parseFloatQ (firstSpaceTok "0 km") = some (1 * (((0 : ℕ) : ℚ) + 0)) := rfl
  rw [h]; norm_num

/-- Hence the guided proximity bound for `"0 km"` is Infinity. -/
lemma proximityToKm_zero_km : proximityToKm "0 km" = none := by
  simp only [proximityToKm, parseFloatQ_zero_km]
  norm_num

/-- Claim C10: `proximityToKm` yields Infinity for the empty string, for a
first token that parses to no number, and for one that parses to `0`; in
particular `"0 km"` lets every stall through the guided distance
filter instead of restricting to radius zero. -/
theorem C10_proximity_zero_unbounded :
    proximityToKm "" = none ∧
    proximityToKm "0 km" = none ∧
    (∀ s : String, parseFloatQ (firstSpaceTok s) = none → proximityToKm s = none) ∧
    (∀ s : String, parseFloatQ (firstSpaceTok s) = some 0 → proximityToKm s = none) ∧
    (∀ (dist : ℚ → ℚ → ℚ → ℚ → ℚ) (lat lng : ℚ) (stalls : List Stall),
      guidedProximityFilter dist lat lng "0 km" stalls
        = stalls.map (attachDistance dist lat lng)) := by
  refine ⟨rfl, proximityToKm_zero_km, ?_, ?_, ?_⟩
  · intro s h
    by_cases hs : s = ""
    · simp [proximityToKm, hs]
    · simp [proximityToKm, hs, h]
  · intro s h
    by_cases hs : s = ""
    · simp [proximityToKm, hs]
    · simp [proximityToKm, hs, h]
  · intro dist lat lng stalls
    unfold guidedProximityFilter
    rw [proximityToKm_zero_km]
    exact List.filter_eq_self.mpr (fun a _ => rfl)

/-- Claim C10, witness: the hypothesis-bearing conjuncts applied at
concrete inputs. -/
theorem C10_witness :
    proximityToKm "abc km" = none ∧ proximityToKm "0 banana" = none := by
  refine ⟨C10_proximity_zero_unbounded.2.2.1 "abc km" rfl,
          C10_proximity_zero_unbounded.2.2.2.1 "0 banana" ?_⟩
  have h : parseFloatQ (firstSpaceTok "0 banana") = some (1 * (((0 : ℕ) : ℚ) + 0)) := rfl
  rw [h]; norm_num

lemma lookupExact_eq_none_iff (n : String) (l : List (String × Coords)) :
    lookupExact n l = none ↔ ∀ kv ∈ l, kv.1 ≠ n := by
  induction l with
  | nil => simp [lookupExact]
  | cons kv t ih =>
    obtain ⟨k, c⟩ := kv
    by_cases hk : k = n
    · simp [lookupExact, hk]
    · simp [lookupExact, hk, ih]

lemma lookupPartial_eq_none_iff (n : String) (l : List (String × Coords)) :
    lookupPartial n l = none ↔
      ∀ kv ∈ l, (strHasSub kv.1 n || strHasSub n kv.1) = false := by
  induction l with
  | nil => simp [lookupPartial]
  | cons kv t ih =>
    obtain ⟨k, c⟩ := kv
    cases hk : (strHasSub k n || strHasSub n k) with
    | true =>
      simp only [lookupPartial, hk, if_true]
      constructor
      · intro h
        cases h
      · intro h
        have h0 := h (k, c) (List.mem_cons_self _ _)
        rw [hk] at h0
        cases h0
    | false =>
      simp only [lookupPartial, hk, Bool.false_eq_true, if_false]
      rw [ih]
      constructor
      · intro h kv' hkv'
        rcases List.mem_cons.mp hkv' with h1 | h2
        · rw [h1]
          exact hk
        · exact h kv' h2
      · intro h kv' hkv'
        exact h kv' (List.mem_cons_of_mem _ hkv')

lemma getFallbackLocation_none_iff (name : String) :
    getFallbackLocation name = none ↔
      (lookupExact (normalizeLoc name) FALLBACK_LOCATIONS = none ∧
       lookupPartial (normalizeLoc name) FALLBACK_LOCATIONS = none) := by
  unfold getFallbackLocation
  cases h : lookupExact (normalizeLoc name) FALLBACK_LOCATIONS with
  | none => simp [h]
  | some c => simp [h]

/-- Claim C6: with the external geocoding service unavailable, `geocode`
resolves through the static gazetteer — exact lookup first, then
first-match-wins bidirectional containment — and returns `null` exactly
when both fail; in particular `geocode "bugis"` with the service
disabled returns the fallback-sourced Bugis coordinates. -/
theorem C6_geocode_fallback :
    geocode OneMapEnv.noToken "bugis"
      = some { lat := 1.3008, lng := 103.8558, source := GeoSource.fallback,
               input := "bugis", address := none } ∧
    (∀ (env : OneMapEnv) (name : String), oneMapUnavailable env = true →
      geocode env name = geocodeWithFallback name) ∧
    (∀ name : String, getFallbackLocation name = none ↔
      ∀ kv ∈ FALLBACK_LOCATIONS, kv.1 ≠ normalizeLoc name ∧
        strHasSub kv.1 (normalizeLoc name) = false ∧
        strHasSub (normalizeLoc name) kv.1 = false) ∧
    (∀ (name : String) (c : Coords),
      lookupExact (normalizeLoc name) FALLBACK_LOCATIONS = some c →
      getFallbackLocation name = some c) := by
  refine ⟨rfl, ?_, ?_, ?_⟩
  · intro env name h
    cases env <;> first | rfl | exact absurd h (by simp [oneMapUnavailable])
  · intro name
    rw [getFallbackLocation_none_iff, lookupExact_eq_none_iff, lookupPartial_eq_none_iff]
    constructor
    · rintro ⟨h1, h2⟩ kv hkv
      have hor := h2 kv hkv
      rw [Bool.or_eq_false_iff] at hor
      exact ⟨h1 kv hkv, hor.1, hor.2⟩
    · intro h
      refine ⟨fun kv hkv => (h kv hkv).1, fun kv hkv => ?_⟩
      rw [Bool.or_eq_false_iff]
      exact ⟨(h kv hkv).2.1, (h kv hkv).2.2⟩
  · intro name c h
    unfold getFallbackLocation
    rw [h]

/-- Claim C6, witness: the conditional conjuncts applied at concrete
inputs (a service-error fallback and the exact-hit path for "bugis"). -/
theorem C6_witness :
    geocode OneMapEnv.thrown "nowhere at all" = geocodeWithFallback "nowhere at all" ∧
    getFallbackLocation "bugis" = some { lat := 1.3008, lng := 103.8558 } :=
  ⟨C6_geocode_fallback.2.1 OneMapEnv.thrown "nowhere at all" rfl,
   C6_geocode_fallback.2.2.2 "bugis" { lat := 1.3008, lng := 103.8558 } rfl⟩

lemma recency_at_age (now : ℝ) (age : ℝ) :
    calculateRecencyScore now (some (now - age * MS_PER_DAY))
      = Real.exp (-(age * MS_PER_DAY / MS_PER_DAY / 365)) := by
  simp only [calculateRecencyScore, MS_PER_DAY]
  congr 1
  ring

lemma recency_exp_neg_one (now : ℝ) :
    calculateRecencyScore now (some (now - 365 * MS_PER_DAY)) = Real.exp (-1) := by
  rw [recency_at_age]
  norm_num [MS_PER_DAY]

lemma recency_exp_neg_two (now : ℝ) :
    calculateRecencyScore now (some (now - 730 * MS_PER_DAY)) = Real.exp (-2) := by
  rw [recency_at_age]
  norm_num [MS_PER_DAY]

lemma exp_neg_one_bounds : (0.36 : ℝ) < Real.exp (-1) ∧ Real.exp (-1) < 0.38 := by
  have hpos : (0 : ℝ) < Real.exp 1 := Real.exp_pos 1
  have h1 := Real.exp_one_gt_d9
  have h2 := Real.exp_one_lt_d9
  have e1 : Real.exp (-1 : ℝ) = 1 / Real.exp 1 := by rw [Real.exp_neg, one_div]
  constructor
  · rw [e1, lt_div_iff₀ hpos]
    nlinarith
  · rw [e1, div_lt_iff₀ hpos]
    nlinarith

lemma exp_neg_two_bounds : (0.13 : ℝ) < Real.exp (-2) ∧ Real.exp (-2) < 0.15 := by
  have hpos : (0 : ℝ) < Real.exp 1 := Real.exp_pos 1
  have hpos2 : (0 : ℝ) < Real.exp 1 * Real.exp 1 := mul_pos hpos hpos
  have h1 := Real.exp_one_gt_d9
  have h2 := Real.exp_one_lt_d9
  have e2 : Real.exp (-2 : ℝ) = 1 / (Real.exp 1 * Real.exp 1) := by
    rw [show (-2 : ℝ) = -(1 + 1) by norm_num, Real.exp_neg, Real.exp_add, one_div]
  constructor
  · rw [e2, lt_div_iff₀ hpos2]
    nlinarith
  · rw [e2, div_lt_iff₀ hpos2]
    nlinarith

/-- Claim C7: the recency score is `exp (-age_days / 365)` with the age in
days measured from `date_published`, `0` for a missing date, `1` at age
zero, strictly increasing in `date_published` (so strictly decreasing in
age), and within `1e-2` of `0.37` at one year and of `0.14` at two
years. -/
theorem C7_recency_score :
    (∀ now : ℝ, calculateRecencyScore now none = 0) ∧
    (∀ now t : ℝ, calculateRecencyScore now (some t)
        = Real.exp (-(((now - t) / (1000 * 3600 * 24)) / 365))) ∧
    (∀ now : ℝ, calculateRecencyScore now (some now) = 1) ∧
    (∀ now t₁ t₂ : ℝ, t₁ < t₂ →
      calculateRecencyScore now (some t₁) < calculateRecencyScore now (some t₂)) ∧
    (∀ now : ℝ,
      |calculateRecencyScore now (some (now - 365 * MS_PER_DAY)) - 0.37| < 1e-2) ∧
    (∀ now : ℝ,
      |calculateRecencyScore now (some (now - 730 * MS_PER_DAY)) - 0.14| < 1e-2) := by
  refine ⟨fun now => rfl, fun now t => rfl, ?_, ?_, ?_, ?_⟩
  · intro now
    simp [calculateRecencyScore, Real.exp_zero]
  · intro now t₁ t₂ h
    simp only [calculateRecencyScore]
    apply Real.exp_lt_exp.mpr
    rw [neg_lt_neg_iff, div_div, div_div]
    have hD : (0 : ℝ) < 1000 * 3600 * 24 * 365 := by norm_num
    rw [div_lt_div_iff_of_pos_right hD]
    linarith
  · intro now
    rw [recency_exp_neg_one, abs_lt]
    have hb := exp_neg_one_bounds
    constructor <;> nlinarith [hb.1, hb.2]
  · intro now
    rw [recency_exp_neg_two, abs_lt]
    have hb := exp_neg_two_bounds
    constructor <;> nlinarith [hb.1, hb.2]

/-- Claim C7, witness: monotonicity applied at a concrete pair of dates. -/
theorem C7_witness :
    calculateRecencyScore 0 (some (-1)) < calculateRecencyScore 0 (some 0) :=
  C7_recency_score.2.2.2.1 0 (-1) 0 (by norm_num)

/-- Claim C9: for every trace and every sink outcome — the insert erroring
(e.g. missing target table) or the client throwing included —
`logTraceToSupabase` returns normally, and any failure degrades to a
logged warning. -/
theorem C9_trace_sink_never_propagates :
    ∀ (outcome : SinkOutcome) (trace : SearchTrace),
      ∃ warning : Option String,
        logTraceToSupabase outcome trace = .ok warning ∧
        (logTraceBody outcome trace ≠ .ok none → warning.isSome = true) := by
  intro o t
  cases o with
  | thrown m => exact ⟨_, rfl, fun _ => rfl⟩
  | insertError m => exact ⟨_, rfl, fun _ => rfl⟩
  | inserted => exact ⟨_, rfl, fun h => absurd rfl h⟩

/-- Claim C9, witness: the theorem applied to a concrete trace and a
missing-table insert error. -/
theorem C9_witness :
    ∃ warning : Option String,
      logTraceToSupabase (SinkOutcome.insertError "relation does not exist")
          { trace_id := "t1", raw_query := "laksa", ranked_ids := [],
            result_count := 0, total_latency_ms := 0, errors := [] }
        = .ok warning ∧
      (logTraceBody (SinkOutcome.insertError "relation does not exist")
          { trace_id := "t1", raw_query := "laksa", ranked_ids := [],
            result_count := 0, total_latency_ms := 0, errors := [] }
        ≠ .ok none → warning.isSome = true) :=
  C9_trace_sink_never_propagates (SinkOutcome.insertError "relation does not exist")
    { trace_id := "t1", raw_query := "laksa", ranked_ids := [],
      result_count := 0, total_latency_ms := 0, errors := [] }

lemma dropWhile_idem (p : α → Bool) (l : List α) :
    (l.dropWhile p).dropWhile p = l.dropWhile p := by
  induction l with
  | nil => rfl
  | cons c t ih =>
    by_cases hc : p c
    · simp [List.dropWhile_cons, hc, ih]
    · simp [List.dropWhile_cons, hc]

lemma dropWhile_head_false (p : α → Bool) :
    ∀ (l : List α) (c : α) (t : List α), l.dropWhile p = c :: t → p c = false := by
  intro l
  induction l with
  | nil => intro c t h; cases h
  | cons a l ih =>
    intro c t h
    by_cases ha : p a
    · rw [List.dropWhile_cons, if_pos ha] at h
      exact ih c t h
    · rw [List.dropWhile_cons, if_neg ha] at h
      injection h with h1 _
      subst h1
      cases hpa : p a
      · rfl
      · exact absurd hpa ha

/-- The left end of a fully trimmed list is already clean. -/
lemma trimLeft_jsTrim (l : List Char) : (jsTrim l).dropWhile isWsp = jsTrim l := by
  unfold jsTrim
  cases hm : l.dropWhile isWsp with
  | nil => simp
  | cons c t =>
    have hc : isWsp c = false := dropWhile_head_false isWsp l c t hm
    rw [List.reverse_cons, List.dropWhile_append]
    by_cases he : (t.reverse.dropWhile isWsp).isEmpty
    · rw [if_pos he]
      simp [List.dropWhile_cons, hc]
    · rw [if_neg he]
      rw [List.reverse_append]
      simp [List.dropWhile_cons, hc]

/-- JS `trim` is idempotent. -/
lemma jsTrim_idem (l : List Char) : jsTrim (jsTrim l) = jsTrim l := by
  have h1 := trimLeft_jsTrim l
  conv_lhs => rw [jsTrim]
  rw [h1, jsTrim, List.reverse_reverse, dropWhile_idem]

lemma jsTrimStr_idem (s : String) : jsTrimStr (jsTrimStr s) = jsTrimStr s := by
  show String.mk (jsTrim (jsTrim s.data)) = String.mk (jsTrim s.data)
  rw [jsTrim_idem]

/-- Claim C2 (amended): the interpreter either fails with the fatal parse
error (exactly when the JSON payload cannot be decoded), or returns a
`ParsedQuery` whose `food_query` is a TRIMMED string — never
null/undefined, but possibly EMPTY: a missing `food_query` falls back to
`""`. -/
theorem C2_food_query_trimmed_total :
    (∀ (chat : ChatOutcome) (decode : String → Option ParsedDecoded) (elapsed : ℕ)
        (query : String) (r : ParseQueryResult),
      parseQuery chat decode elapsed query = Except.ok r →
      jsTrimStr r.parsed.food_query = r.parsed.food_query) ∧
    (∀ (decode : String → Option ParsedDecoded) (response : String) (d : ParsedDecoded),
      decode (cleanLlmJson response) = some d → d.food_query = none →
      ∃ p, parseJsonResponse decode response = Except.ok p ∧ p.food_query = "") ∧
    (∀ (decode : String → Option ParsedDecoded) (response : String),
      decode (cleanLlmJson response) = none →
      parseJsonResponse decode response
        = Except.error ("Invalid JSON response from LLM: " ++ (cleanLlmJson response).take 100)) := by
  refine ⟨?_, ?_, ?_⟩
  · intro chat decode elapsed query r h
    cases chat with
    | throw m => simp [parseQuery] at h
    | reply text =>
      simp only [parseQuery] at h
      cases hd : decode (cleanLlmJson text) with
      | none =>
        simp only [parseJsonResponse, hd] at h
        exact Except.noConfusion h
      | some d =>
        simp only [parseJsonResponse, hd] at h
        injection h with h1
        subst h1
        exact jsTrimStr_idem _
  · intro decode response d hd hfq
    have hres : parseJsonResponse decode response = Except.ok
        { food_query := jsTrimStr (d.food_query.getD "")
          location_name :=
            match d.location_name with
            | some s => if s = "" then none else some (jsTrimStr s)
            | none => none
          use_current_location := d.use_current_location
          location_intent := normalizeLocationIntent d.location_intent
          cuisine :=
            match d.cuisine with
            | some s => if s = "" then none else some (jsTrimStr s)
            | none => none
          price := normalizePrice d.price
          exclusions := (d.exclusions.getD []).map jsTrimStr } := by
      simp only [parseJsonResponse, hd]
    refine ⟨_, hres, ?_⟩
    show jsTrimStr (d.food_query.getD "") = ""
    rw [hfq]
    rfl
  · intro decode response h
    simp only [parseJsonResponse, h]

/-- Claim C2, counterexample: on the reply `"{}"` (no `food_query` field)
the interpreter succeeds with `food_query = ""` — an empty string, so
"non-empty" does not hold. -/
theorem C2_counterexample :
    ∃ r, parseQuery (ChatOutcome.reply "{}") decodeEmptyObject 0 "char kway teow"
        = Except.ok r ∧ r.parsed.food_query = "" :=
  ⟨_, rfl, rfl⟩

/-- Claim C2, witness: the trimmedness part applied at a successful
concrete parse. -/
theorem C2_witness :
    jsTrimStr
        (({ parsed := { food_query := "laksa", location_name := none,
                        use_current_location := false, location_intent := none,
                        cuisine := none, price := none, exclusions := [] },
            raw_response := "r", latency_ms := 3 } : ParseQueryResult)).parsed.food_query
      = "laksa" :=
  C2_food_query_trimmed_total.1 (ChatOutcome.reply "r")
    (fun _ => some { food_query := some "laksa", location_name := none,
                     use_current_location := false, location_intent := none,
                     cuisine := none, price := none, exclusions := none })
    3 "best laksa" _ rfl

/-- Claim C5: an empty candidate list short-circuits `rankWithLLM` before
any external call — the result is the synthetic empty ranking at zero
latency for EVERY chat/decode environment — and the orchestrator's
ranking-and-format tail produces an empty final results list. -/
theorem C5_empty_candidates :
    ∀ (chat : ChatOutcome) (decode : String → Option RankDecoded) (elapsed : ℕ)
      (q : String),
      rankWithLLM chat decode elapsed q []
        = { ranking := { ranked_ids := [], reasoning := some "No candidates to rank" }
            raw_response := "", latency_ms := 0 } ∧
      agentResults chat decode elapsed q [] = [] := by
  intro chat decode elapsed q
  exact ⟨rfl, rfl⟩

lemma map_id_of_mem {f : α → α} :
    ∀ {l : List α}, (∀ x ∈ l, f x = x) → l.map f = l := by
  intro l h
  induction l with
  | nil => rfl
  | cons x t ih =>
    simp only [List.map_cons]
    rw [h x (List.mem_cons_self _ _), ih (fun y hy => h y (List.mem_cons_of_mem _ hy))]

/-- Claim C8: the distance filter (attach distance, drop beyond the
radius, sort ascending) is idempotent — for any distance function,
center and radius, re-applying it to its own output is the identity. -/
theorem C8_distance_filter_idempotent :
    ∀ (dist : ℚ → ℚ → ℚ → ℚ → ℚ) (center : Coords) (radius : ℚ) (cs : List Stall),
      distanceFilter dist center radius (distanceFilter dist center radius cs)
        = distanceFilter dist center radius cs := by
  intro dist center radius cs
  set f := attachDistance dist center.lat center.lng with hf
  set p : Stall → Bool := fun st => decide (st.distance.getD 0 ≤ radius) with hp
  set L := (cs.map f).filter p with hL
  have hmemL : ∀ s ∈ List.insertionSort distRel L, s ∈ L :=
    fun s hs => (List.mem_insertionSort (r := distRel)).mp hs
  have hfix : ∀ s ∈ L, f s = s := by
    intro s hs
    have hs' := List.mem_filter.mp hs
    obtain ⟨t, _, rfl⟩ := List.mem_map.mp hs'.1
    rfl
  have hpre : ∀ s ∈ L, p s = true := fun s hs => (List.mem_filter.mp hs).2
  show List.insertionSort distRel
      (((List.insertionSort distRel L).map f).filter p) = List.insertionSort distRel L
  rw [map_id_of_mem (fun x hx => hfix x (hmemL x hx)),
      List.filter_eq_self.mpr (fun a ha => hpre a (hmemL a ha))]
  exact List.Sorted.insertionSort_eq (List.sorted_insertionSort distRel L)

lemma mem_enumIdx_iff (a : α) (l : List α) :
    ∀ (n i : ℕ), (i, a) ∈ enumIdx n l ↔ n ≤ i ∧ l[i - n]? = some a := by
  induction l with
  | nil =>
    intro n i
    simp [enumIdx]
  | cons x t ih =>
    intro n i
    simp only [enumIdx, List.mem_cons]
    constructor
    · rintro (h | h)
      · injection h with h1 h2
        subst h1
        subst h2
        simp
      · obtain ⟨h1, h2⟩ := (ih (n + 1) i).mp h
        refine ⟨by omega, ?_⟩
        have he : i - n = (i - (n + 1)) + 1 := by omega
        rw [he]
        simpa using h2
    · rintro ⟨h1, h2⟩
      by_cases hin : i = n
      · subst hin
        simp only [Nat.sub_self, List.getElem?_cons_zero, Option.some.injEq] at h2
        subst h2
        exact Or.inl rfl
      · right
        apply (ih (n + 1) i).mpr
        refine ⟨by omega, ?_⟩
        have he : i - n = (i - (n + 1)) + 1 := by omega
        rw [he] at h2
        simpa using h2

lemma mem_enumIdx_zero {p : ℕ × α} {l : List α} (h : p ∈ enumIdx 0 l) :
    l[p.1]? = some p.2 := by
  obtain ⟨i, a⟩ := p
  have := (mem_enumIdx_iff a l 0 i).mp h
  simpa using this.2

lemma enumIdx_map_snd : ∀ (n : ℕ) (l : List α), (enumIdx n l).map (fun p => p.2) = l := by
  intro n l
  induction l generalizing n with
  | nil => rfl
  | cons x t ih => simp [enumIdx, ih]

lemma matchPairs_mem {q : String} {cs : List Stall} {i s : ℕ}
    (h : (i, s) ∈ matchPairs q cs) :
    i < cs.length ∧ s = scoreOf q (cs.getD i dfltStall) ∧ 0 < s := by
  obtain ⟨p, hp, hfp⟩ := List.mem_filterMap.mp h
  obtain ⟨j, st⟩ := p
  have hget : cs[j]? = some st := by simpa using mem_enumIdx_zero hp
  dsimp only at hfp
  by_cases hsc : 0 < scoreOf q st
  · rw [if_pos hsc] at hfp
    have hpair : (j, scoreOf q st) = (i, s) := by injection hfp
    have hj : j = i := congrArg Prod.fst hpair
    have hsv : scoreOf q st = s := congrArg Prod.snd hpair
    have hlt : i < cs.length := by
      rcases List.getElem?_eq_some.mp hget with ⟨hw, _⟩
      omega
    have hst : cs.getD i dfltStall = st := by
      rw [List.getD_eq_getElem?_getD, ← hj, hget]
      rfl
    refine ⟨hlt, ?_, ?_⟩
    · rw [hst, hsv]
    · rw [← hsv]
      exact hsc
  · rw [if_neg hsc] at hfp
    exact Option.noConfusion hfp

lemma mem_matchPairs_of_score {q : String} {cs : List Stall} {i : ℕ}
    (hlt : i < cs.length) (hsc : 0 < scoreOf q (cs.getD i dfltStall)) :
    (i, scoreOf q (cs.getD i dfltStall)) ∈ matchPairs q cs := by
  apply List.mem_filterMap.mpr
  refine ⟨(i, cs.getD i dfltStall), ?_, ?_⟩
  · apply (mem_enumIdx_iff (cs.getD i dfltStall) cs 0 i).mpr
    refine ⟨Nat.zero_le i, ?_⟩
    rw [Nat.sub_zero, List.getElem?_eq_getElem hlt, List.getD_eq_getElem cs dfltStall hlt]
  · dsimp only
    rw [if_pos hsc]

lemma mem_findNameMatches_iff (q : String) (cs : List Stall) (i : ℕ) :
    i ∈ findNameMatches q cs ↔
      i < cs.length ∧ 0 < scoreOf q (cs.getD i dfltStall) := by
  unfold findNameMatches
  rw [List.mem_map]
  constructor
  · rintro ⟨⟨j, s⟩, hm, rfl⟩
    have := matchPairs_mem ((List.mem_insertionSort (r := scoreRel)).mp hm)
    exact ⟨this.1, by rw [← this.2.1]; exact this.2.2⟩
  · rintro ⟨hlt, hsc⟩
    exact ⟨(i, scoreOf q (cs.getD i dfltStall)),
      (List.mem_insertionSort (r := scoreRel)).mpr (mem_matchPairs_of_score hlt hsc), rfl⟩

lemma preFilter_subset (q : String) (cs : List Stall) :
    ∀ x ∈ preFilter q cs, x ∈ cs := by
  intro x hx
  unfold preFilter at hx
  by_cases he : (findNameMatches q cs).isEmpty
  · rw [if_pos he] at hx
    exact hx
  · rw [if_neg he] at hx
    rcases List.mem_append.mp hx with h | h
    · obtain ⟨i, hi, rfl⟩ := List.mem_map.mp h
      have hlt := ((mem_findNameMatches_iff q cs i).mp hi).1
      rw [List.getD_eq_getElem cs dfltStall hlt]
      exact List.getElem_mem hlt
    · obtain ⟨p, hp, rfl⟩ := List.mem_map.mp h
      have hp' := (List.mem_filter.mp hp).1
      rcases List.getElem?_eq_some.mp (mem_enumIdx_zero hp') with ⟨hw, heq⟩
      rw [← heq]
      exact List.getElem_mem hw

lemma take_map_place_id_subset (n : ℕ) (l cs : List Stall)
    (hsub : ∀ x ∈ l, x ∈ cs) :
    ∀ id ∈ (l.take n).map (fun s => s.place_id), id ∈ cs.map (fun s => s.place_id) := by
  intro id hid
  obtain ⟨s, hs, rfl⟩ := List.mem_map.mp hid
  exact List.mem_map.mpr ⟨s, hsub s ((List.take_sublist n l).subset hs), rfl⟩

lemma parseRankingResponse_props (decode : String → Option RankDecoded)
    (response : String) (cands : List Stall) :
    (parseRankingResponse decode response cands).ranked_ids.length ≤ TOP_N_RESULTS ∧
    ∀ id ∈ (parseRankingResponse decode response cands).ranked_ids,
      id ∈ cands.map (fun s => s.place_id) := by
  simp only [parseRankingResponse]
  cases hd : decode (cleanLlmJson response) with
  | none =>
    dsimp only
    refine ⟨?_, ?_⟩
    · simp only [List.length_map, List.length_take, TOP_N_RESULTS]
      omega
    · exact take_map_place_id_subset TOP_N_RESULTS cands cands (fun x hx => hx)
  | some d =>
    dsimp only
    split
    · refine ⟨?_, ?_⟩
      · simp only [List.length_map, List.length_take, TOP_N_RESULTS]
        omega
      · exact take_map_place_id_subset TOP_N_RESULTS cands cands (fun x hx => hx)
    · refine ⟨?_, ?_⟩
      · simp only [List.length_take, TOP_N_RESULTS]
        omega
      · intro id hid
        have hid' := (List.take_sublist TOP_N_RESULTS _).subset hid
        obtain ⟨position, _, heq⟩ := List.mem_filterMap.mp hid'
        by_cases hcond : 0 ≤ position - 1 ∧ position - 1 < (cands.length : ℤ)
        · rw [if_pos hcond] at heq
          injection heq with hid2
          have hlt : (position - 1).toNat < cands.length := by omega
          subst hid2
          rw [List.getD_eq_getElem cands dfltStall hlt]
          exact List.mem_map.mpr ⟨_, List.getElem_mem hlt, rfl⟩
        · rw [if_neg hcond] at heq
          exact Option.noConfusion heq

/-- Claim C1 (amended): for every candidate list and every chat/decode
environment, the `RankingResult` of the LLM ranking engine has at most
`TOP_N_RESULTS` (10) entries, all drawn from the input candidates'
`place_id`s.  (Freedom from duplicates does NOT hold — see the
counterexample.) -/
theorem C1_ranked_ids_subset_bounded :
    ∀ (chat : ChatOutcome) (decode : String → Option RankDecoded) (elapsed : ℕ)
      (foodQuery : String) (candidates : List Stall),
      (rankWithLLM chat decode elapsed foodQuery candidates).ranking.ranked_ids.length
          ≤ TOP_N_RESULTS ∧
      ∀ id ∈ (rankWithLLM chat decode elapsed foodQuery candidates).ranking.ranked_ids,
        id ∈ candidates.map (fun s => s.place_id) := by
  intro chat decode elapsed q cs
  by_cases hcs : cs.length = 0
  · have h : rankWithLLM chat decode elapsed q cs
        = { ranking := { ranked_ids := [], reasoning := some "No candidates to rank" }
            raw_response := "", latency_ms := 0 } := by
      simp only [rankWithLLM, if_pos hcs]
    rw [h]
    exact ⟨by simp [TOP_N_RESULTS], by intro id hid; cases hid⟩
  · cases chat with
    | throw m =>
      have h : rankWithLLM (ChatOutcome.throw m) decode elapsed q cs
          = { ranking :=
                { ranked_ids :=
                    ((preFilter q cs).take TOP_N_RESULTS).map (fun s => s.place_id),
                  reasoning := some "Fallback to original order due to ranking error" },
              raw_response := "", latency_ms := elapsed } := by
        simp only [rankWithLLM, if_neg hcs]
      rw [h]
      refine ⟨?_, ?_⟩
      · simp only [List.length_map, List.length_take, TOP_N_RESULTS]
        omega
      · exact take_map_place_id_subset TOP_N_RESULTS (preFilter q cs) cs
          (preFilter_subset q cs)
    | reply text =>
      have h : rankWithLLM (ChatOutcome.reply text) decode elapsed q cs
          = { ranking := parseRankingResponse decode text
                  ((preFilter q cs).take MAX_RANKING_CANDIDATES),
              raw_response := text, latency_ms := elapsed } := by
        simp only [rankWithLLM, if_neg hcs]
      rw [h]
      have hp := parseRankingResponse_props decode text
        ((preFilter q cs).take MAX_RANKING_CANDIDATES)
      refine ⟨hp.1, ?_⟩
      intro id hid
      obtain ⟨s, hs, rfl⟩ := List.mem_map.mp (hp.2 id hid)
      exact List.mem_map.mpr
        ⟨s, preFilter_subset q cs s ((List.take_sublist _ _).subset hs), rfl⟩

/-- Claim C1, counterexample: a ranking reply repeating position 1 yields
`ranked_ids = ["p1", "p1"]` — a duplicate `place_id`, so the
no-duplicates part of the claim is false. -/
theorem C1_counterexample :
    ¬ (rankWithLLM (ChatOutcome.reply "resp") decodeDupRanking 7 "q"
        [stallA, stallB]).ranking.ranked_ids.Nodup := by
  have h : (rankWithLLM (ChatOutcome.reply "resp") decodeDupRanking 7 "q"
      [stallA, stallB]).ranking.ranked_ids = ["p1", "p1"] := rfl
  rw [h]
  decide

/-- Claim C1, witness: the theorem applied at the concrete duplicate-id
scenario, discharging the membership hypothesis. -/
theorem C1_witness :
    (rankWithLLM (ChatOutcome.reply "resp") decodeDupRanking 7 "q"
        [stallA, stallB]).ranking.ranked_ids.length ≤ TOP_N_RESULTS ∧
    "p1" ∈ ([stallA, stallB].map (fun s => s.place_id)) :=
  ⟨(C1_ranked_ids_subset_bounded (ChatOutcome.reply "resp") decodeDupRanking 7 "q"
      [stallA, stallB]).1,
   (C1_ranked_ids_subset_bounded (ChatOutcome.reply "resp") decodeDupRanking 7 "q"
      [stallA, stallB]).2 "p1"
     (by
       have h : (rankWithLLM (ChatOutcome.reply "resp") decodeDupRanking 7 "q"
           [stallA, stallB]).ranking.ranked_ids = ["p1", "p1"] := rfl
       rw [h]
       exact List.mem_cons_self _ _)⟩

lemma chain'_imp_of_mem {R S : α → α → Prop} :
    ∀ l : List α, List.Chain' R l → (∀ a ∈ l, ∀ b ∈ l, R a b → S a b) →
      List.Chain' S l := by
  intro l
  induction l with
  | nil =>
    intro _ _
    exact List.chain'_nil
  | cons x t ih =>
    intro h hmem
    cases t with
    | nil => exact List.chain'_singleton x
    | cons y ts =>
      rw [List.chain'_cons] at h ⊢
      refine ⟨hmem x (List.mem_cons_self _ _)
          y (List.mem_cons_of_mem _ (List.mem_cons_self _ _)) h.1, ?_⟩
      exact ih h.2 (fun a ha b hb hr =>
        hmem a (List.mem_cons_of_mem _ ha) b (List.mem_cons_of_mem _ hb) hr)

/-- Inserting an element whose original index is smaller than every index
already present preserves the stable-descending chain. -/
lemma chain'_orderedInsert_stable (x : ℕ × ℕ) :
    ∀ (l : List (ℕ × ℕ)), List.Chain' stableDesc l → (∀ y ∈ l, x.1 < y.1) →
      List.Chain' stableDesc (List.orderedInsert scoreRel x l) := by
  intro l
  induction l with
  | nil =>
    intro _ _
    exact List.chain'_singleton x
  | cons y t ih =>
    intro hC hx
    by_cases hxy : scoreRel x y
    · rw [List.orderedInsert, if_pos hxy]
      refine List.Chain'.cons ?_ hC
      rcases lt_or_eq_of_le hxy with hlt | heq
      · exact Or.inl hlt
      · exact Or.inr ⟨heq.symm, hx y (List.mem_cons_self _ _)⟩
    · rw [List.orderedInsert, if_neg hxy]
      have hyx : x.2 < y.2 := Nat.lt_of_not_le hxy
      have htail := ih hC.tail (fun z hz => hx z (List.mem_cons_of_mem _ hz))
      refine List.chain'_cons'.mpr ⟨?_, htail⟩
      intro h hh
      cases t with
      | nil =>
        simp only [List.orderedInsert, List.head?_cons, Option.mem_def,
          Option.some.injEq] at hh
        subst hh
        exact Or.inl hyx
      | cons z ts =>
        rw [List.orderedInsert] at hh
        by_cases hxz : scoreRel x z
        · rw [if_pos hxz] at hh
          simp only [List.head?_cons, Option.mem_def, Option.some.injEq] at hh
          subst hh
          exact Or.inl hyx
        · rw [if_neg hxz] at hh
          simp only [List.head?_cons, Option.mem_def, Option.some.injEq] at hh
          subst hh
          exact (List.chain'_cons.mp hC).1

/-- The stable sort of a list of pairs with strictly increasing indices is
chained by `stableDesc`: descending scores, ties broken by the original
order. -/
lemma chain'_insertionSort_stable :
    ∀ (l : List (ℕ × ℕ)), List.Pairwise (fun a b : ℕ × ℕ => a.1 < b.1) l →
      List.Chain' stableDesc (List.insertionSort scoreRel l) := by
  intro l
  induction l with
  | nil =>
    intro _
    exact List.chain'_nil
  | cons x t ih =>
    intro h
    rw [List.insertionSort]
    refine chain'_orderedInsert_stable x _ (ih (List.pairwise_cons.mp h).2) ?_
    intro y hy
    exact (List.pairwise_cons.mp h).1 y ((List.mem_insertionSort (r := scoreRel)).mp hy)

lemma pairwise_fst_enumIdx : ∀ (n : ℕ) (l : List α),
    List.Pairwise (fun a b : ℕ × α => a.1 < b.1) (enumIdx n l) := by
  intro n l
  induction l generalizing n with
  | nil => exact List.Pairwise.nil
  | cons x t ih =>
    refine List.pairwise_cons.mpr ⟨?_, ih (n + 1)⟩
    intro p hp
    obtain ⟨i, a⟩ := p
    have h1 := ((mem_enumIdx_iff a t (n + 1) i).mp hp).1
    dsimp only
    omega

lemma matchPairs_fn_fst {q : String} {p : ℕ × Stall} {x : ℕ × ℕ}
    (hx : x ∈ (if 0 < scoreOf q p.2 then some (p.1, scoreOf q p.2) else none)) :
    x.1 = p.1 := by
  by_cases h1 : 0 < scoreOf q p.2
  · rw [if_pos h1, Option.mem_def] at hx
    injection hx with h2
    rw [← h2]
  · rw [if_neg h1, Option.mem_def] at hx
    exact Option.noConfusion hx

lemma pairwise_fst_matchPairs (q : String) (cs : List Stall) :
    List.Pairwise (fun a b : ℕ × ℕ => a.1 < b.1) (matchPairs q cs) := by
  unfold matchPairs
  refine List.pairwise_filterMap.mpr ?_
  refine List.Pairwise.imp ?_ (pairwise_fst_enumIdx 0 cs)
  intro a b hab x hx y hy
  have hxa : x.1 = a.1 := matchPairs_fn_fst hx
  have hyb : y.1 = b.1 := matchPairs_fn_fst hy
  omega

/-- Claim C3: the pre-filter of the LLM ranking engine.  (1) The boosted
index list holds exactly the candidates whose score — summed length of
query words longer than 2 characters occurring in the name, plus 100
for a whole-query phrase match — is positive; (2) it is ordered by
strictly descending score with ties in original order (stability);
(3) the reordered candidate list is the boosted block followed by the
remaining candidates in their original relative order; and (4) in the
spec's scenario, with the ranking call failing, "Tian Tian" is ranked
strictly before "ABC Stall". -/
theorem C3_name_match_preboost :
    (∀ (q : String) (cs : List Stall) (i : ℕ),
      i ∈ findNameMatches q cs ↔
        i < cs.length ∧ 0 < scoreOf q (cs.getD i dfltStall)) ∧
    (∀ (q : String) (cs : List Stall),
      List.Chain' (fun i j : ℕ =>
        scoreOf q (cs.getD j dfltStall) < scoreOf q (cs.getD i dfltStall) ∨
        (scoreOf q (cs.getD i dfltStall) = scoreOf q (cs.getD j dfltStall) ∧ i < j))
        (findNameMatches q cs)) ∧
    (∀ (q : String) (cs : List Stall),
      preFilter q cs
        = (findNameMatches q cs).map (fun i => cs.getD i dfltStall)
          ++ ((enumIdx 0 cs).filter
                (fun p => !((findNameMatches q cs).contains p.1))).map (fun p => p.2)) ∧
    (∀ (msg : String) (decode : String → Option RankDecoded) (elapsed : ℕ),
      (rankWithLLM (ChatOutcome.throw msg) decode elapsed "tian tian chicken rice"
          [ttStall, abcStall]).ranking.ranked_ids
        = ["tian-tian", "abc-stall"]) := by
  refine ⟨mem_findNameMatches_iff, ?_, ?_, ?_⟩
  · intro q cs
    unfold findNameMatches
    rw [List.chain'_map]
    apply chain'_imp_of_mem _
      (chain'_insertionSort_stable _ (pairwise_fst_matchPairs q cs))
    intro a ha b hb hr
    have ha' := matchPairs_mem ((List.mem_insertionSort (r := scoreRel)).mp ha)
    have hb' := matchPairs_mem ((List.mem_insertionSort (r := scoreRel)).mp hb)
    rw [← ha'.2.1, ← hb'.2.1]
    exact hr
  · intro q cs
    by_cases he : (findNameMatches q cs).isEmpty
    · have h0 : findNameMatches q cs = [] := List.isEmpty_iff.mp he
      simp only [preFilter, if_pos he]
      rw [h0]
      have hfil : (enumIdx 0 cs).filter (fun p => !(([] : List ℕ).contains p.1))
          = enumIdx 0 cs :=
        List.filter_eq_self.mpr (fun a _ => rfl)
      rw [hfil, enumIdx_map_snd]
      simp
    · simp only [preFilter, if_neg he]
  · intro msg decode elapsed
    rfl

/-- Claim C3, witness: the membership characterization applied at the
scenario — "Tian Tian" (index 0, score 8) is boosted. -/
theorem C3_witness :
    0 ∈ findNameMatches "tian tian chicken rice" [ttStall, abcStall] := by
  apply (C3_name_match_preboost.1 "tian tian chicken rice" [ttStall, abcStall] 0).mpr
  refine ⟨?_, ?_⟩
  · rw [show ([ttStall, abcStall] : List Stall).length = 2 from rfl]
    omega
  · rw [show scoreOf "tian tian chicken rice"
        (([ttStall, abcStall] : List Stall).getD 0 dfltStall) = 8 from rfl]
    omega

end StallFinder
